import Mathlib

/-!
Verification of the MetaHub event ingestion, routing and delivery pipeline.

The definitions below are shallow embeddings of the Supabase edge functions
of the repository:

* the meta-oauth function (OAuth state signing and verification),
* the meta-webhook function (challenge verification, route matching,
  WhatsApp entry processing, inline delivery),
* the delivery-worker function (delivery attempts with retry/backoff/DLQ,
  resend).

Strings coming over the wire are modelled as Lean String; raw byte strings
(inputs of base64, hex and MAC computations) are modelled as List Nat with
every element below 256.  JavaScript truthiness of optional strings and
numbers is modelled explicitly (`undefined` and the empty string are falsy;
the number 0 is falsy).  Wall-clock reads (Date.now()) are passed in as an
explicit `now : Nat` (milliseconds).  The WebCrypto HMAC-SHA256 primitive is
an external platform function; it is passed in as a parameter
`mac : List Nat → List Nat → List Nat` (key, data ↦ digest bytes), exactly
as `now` stands for the platform clock.
-/

namespace MetaHub

/-- JavaScript truthiness of a possibly-undefined string: `undefined` and
the empty string are falsy, every other string is truthy. -/
def jsTruthy : Option String → Bool
  | none => false
  | some s => s ≠ ""

/-- JavaScript `x || d` on a possibly-undefined string with default. -/
def jsOrStr (x : Option String) (d : String) : String :=
  match x with
  | none => d
  | some s => if s = "" then d else s

/-- JavaScript `n || d` on a number (0 is falsy). -/
def jsOrNat (n d : Nat) : Nat :=
  if n = 0 then d else n

/-! ### meta-webhook: GET verification (claim C10)

From supabase/functions/meta-webhook/index.ts:

  const META_WEBHOOK_VERIFY_TOKEN =
    Deno.env.get("META_WEBHOOK_VERIFY_TOKEN") || "metahub_verify_token";

and handleVerification (lines 68-83).
-/

/-- The verify token constant of meta-webhook: the environment variable when
set and non-empty, otherwise the hard-coded default. -/
def metaWebhookVerifyToken (env : Option String) : String :=
  jsOrStr env "metahub_verify_token"

/-- The query parameters of a GET verification request
(url.searchParams.get returns the string or null). -/
structure VerificationRequest where
  mode : Option String
  verifyToken : Option String
  challenge : Option String
deriving Repr, DecidableEq

/-- An HTTP response reduced to status code and body (a null body is the
empty response Meta receives when hub.challenge is absent). -/
structure SimpleResponse where
  status : Nat
  body : Option String
deriving Repr, DecidableEq

/-- handleVerification of meta-webhook: answer the Meta challenge with 200
and the raw challenge iff hub.mode is "subscribe" and hub.verify_token
equals the configured token; otherwise 403 Forbidden. -/
def handleVerification (env : Option String) (req : VerificationRequest) :
    SimpleResponse :=
  if req.mode = some "subscribe" ∧
      req.verifyToken = some (metaWebhookVerifyToken env) then
    { status := 200, body := req.challenge }
  else
    { status := 403, body := some "Forbidden" }

end MetaHub

namespace MetaHub

/-! ### Byte strings, base64 and hex

btoa/atob of the source operate on latin-1 strings; we model their inputs
and outputs at the byte level (List Nat, entries < 256). -/

/-- The bytes of an ASCII/latin-1 Lean string literal. -/
def strBytes (s : String) : List Nat :=
  s.data.map Char.toNat

/-- The character of a base64 sextet (the standard alphabet
A-Z a-z 0-9 + /). -/
def b64Char (n : Nat) : Char :=
  if n < 26 then Char.ofNat (65 + n)
  else if n < 52 then Char.ofNat (97 + (n - 26))
  else if n < 62 then Char.ofNat (48 + (n - 52))
  else if n = 62 then '+'
  else '/'

/-- The sextet of a base64 character, none for a character outside the
alphabet. -/
def b64Index (c : Char) : Option Nat :=
  if 65 ≤ c.toNat ∧ c.toNat ≤ 90 then some (c.toNat - 65)
  else if 97 ≤ c.toNat ∧ c.toNat ≤ 122 then some (c.toNat - 97 + 26)
  else if 48 ≤ c.toNat ∧ c.toNat ≤ 57 then some (c.toNat - 48 + 52)
  else if c = '+' then some 62
  else if c = '/' then some 63
  else none

/-- btoa: base64 of a byte string, with = padding. -/
def base64Encode : List Nat → List Char
  | [] => []
  | [a] => [b64Char (a / 4), b64Char (a % 4 * 16), '=', '=']
  | [a, b] => [b64Char (a / 4), b64Char (a % 4 * 16 + b / 16),
      b64Char (b % 16 * 4), '=']
  | a :: b :: c :: rest =>
      b64Char (a / 4) :: b64Char (a % 4 * 16 + b / 16) ::
      b64Char (b % 16 * 4 + c / 64) :: b64Char (c % 64) :: base64Encode rest

/-- atob: decode a base64 string back to bytes; none on malformed input
(atob throws there: a length not a multiple of four, a padding sign away
from the end, or a character outside the alphabet; leftover bits of a
padded group are discarded, as atob discards them). -/
def base64Decode : List Char → Option (List Nat)
  | [] => some []
  | w :: x :: y :: z :: rest =>
    if rest = [] ∧ y = '=' ∧ z = '=' then do
      let a ← b64Index w
      let b ← b64Index x
      pure [a * 4 + b / 16]
    else if rest = [] ∧ z = '=' then do
      let a ← b64Index w
      let b ← b64Index x
      let c ← b64Index y
      pure [a * 4 + b / 16, b % 16 * 16 + c / 4]
    else do
      let a ← b64Index w
      let b ← b64Index x
      let c ← b64Index y
      let d ← b64Index z
      let tail ← base64Decode rest
      pure ((a * 4 + b / 16) :: (b % 16 * 16 + c / 4) :: (c % 4 * 64 + d) :: tail)
  | _ => none

/-- btoa on an ASCII Lean string, as used for basic auth headers. -/
def btoaString (s : String) : String :=
  String.mk (base64Encode (strBytes s))

/-- The lower-case hex digit of a value below 16. -/
def hexDigit (n : Nat) : Char :=
  if n < 10 then Char.ofNat (48 + n) else Char.ofNat (87 + n)

/-- The two-digit hex rendering of one byte
(b.toString(16).padStart(2, "0") for b < 256). -/
def hexByte (b : Nat) : List Char :=
  [hexDigit (b / 16), hexDigit (b % 16)]

/-- Hex rendering of a byte string (map + join of the source). -/
def bytesToHex (l : List Nat) : List Char :=
  l.flatMap hexByte

/-- The value of a hex digit character, none for a non-hex character. -/
def hexVal (c : Char) : Option Nat :=
  if 48 ≤ c.toNat ∧ c.toNat ≤ 57 then some (c.toNat - 48)
  else if 97 ≤ c.toNat ∧ c.toNat ≤ 102 then some (c.toNat - 97 + 10)
  else if 65 ≤ c.toNat ∧ c.toNat ≤ 70 then some (c.toNat - 65 + 10)
  else none

/-- parseInt(h, 16) of a two-character chunk, fed into a Uint8Array: a
leading non-digit gives NaN which Uint8Array stores as 0; a trailing
non-digit is ignored by parseInt (it parses the longest prefix). -/
def parseHexPair (a b : Char) : Nat :=
  match hexVal a, hexVal b with
  | some x, some y => 16 * x + y
  | some x, none => x
  | none, _ => 0

/-- sigHex.match(of two-character chunks): the list of byte values of the
consecutive pairs; a trailing odd character is dropped by the regex. -/
def hexPairs : List Char → List Nat
  | a :: b :: rest => parseHexPair a b :: hexPairs rest
  | _ => []

end MetaHub

namespace MetaHub

/-! ### Auth headers for destinations (claim C2)

buildAuthHeaders appears twice in the source, once in
supabase/functions/delivery-worker/index.ts (lines 54-72) and once in
supabase/functions/meta-webhook/index.ts (lines 168-186); the two copies are
textually identical, so one embedding covers both. -/

/-- The fields of a destination auth_config record that buildAuthHeaders
reads (a missing field is undefined, hence falsy). -/
structure AuthConfig where
  token : Option String := none
  username : Option String := none
  password : Option String := none
  headerName : Option String := none
  apiKey : Option String := none
  secret : Option String := none
deriving Repr, DecidableEq

/-- buildAuthHeaders: the auth headers added for a destination, keyed by
auth_type.  The switch has cases for bearer, basic and api_key only; every
other auth_type (including hmac and none) falls to the default branch and
adds no header. -/
def buildAuthHeaders (authType : String) (cfg : AuthConfig) :
    List (String × String) :=
  if authType = "bearer" then
    if jsTruthy cfg.token then
      [("Authorization", "Bearer " ++ (cfg.token.getD ""))]
    else []
  else if authType = "basic" then
    [("Authorization", "Basic " ++
      btoaString ((cfg.username.getD "") ++ ":" ++ (cfg.password.getD "")))]
  else if authType = "api_key" then
    if jsTruthy cfg.headerName ∧ jsTruthy cfg.apiKey then
      [((cfg.headerName.getD ""), (cfg.apiKey.getD ""))]
    else []
  else []

/-- The full header list of an outbound delivery call of the worker
(deliverEvent lines 124-131): base headers, then destination headers, then
auth headers. -/
def deliverHeaders (eventId : String) (attemptNumber : Nat)
    (destHeaders : List (String × String)) (authType : String)
    (cfg : AuthConfig) : List (String × String) :=
  [("Content-Type", "application/json"),
   ("User-Agent", "MetaHub-Webhook/1.0"),
   ("X-MetaHub-Event-Id", eventId),
   ("X-MetaHub-Attempt", toString attemptNumber)]
  ++ destHeaders ++ buildAuthHeaders authType cfg

end MetaHub

namespace MetaHub

/-! ### Claim theorems (first group) -/

/-- Claim C10 (confirmed).  With the META_WEBHOOK_VERIFY_TOKEN environment
variable unset, the configured token is the hard-coded default
"metahub_verify_token"; a GET verification request with hub.mode =
subscribe and that exact token receives 200 with the raw challenge, and any
other combination receives 403. -/
theorem verification_default_token (req : VerificationRequest) :
    metaWebhookVerifyToken none = "metahub_verify_token" ∧
    handleVerification none req =
      (if req.mode = some "subscribe" ∧
          req.verifyToken = some "metahub_verify_token" then
        { status := 200, body := req.challenge }
      else { status := 403, body := some "Forbidden" }) := by
  exact ⟨rfl, rfl⟩

/-- Claim C2 (code_bug evidence).  For a destination with auth_type hmac
and a configured secret, buildAuthHeaders returns no header at all, and in
particular the outbound headers of a delivery contain no
X-Hub-Signature-256 header: the hmac case of the switch is missing. -/
theorem hmac_adds_no_signature_header :
    buildAuthHeaders "hmac" { secret := some "topsecret" } = [] ∧
    (deliverHeaders "evt-1" 1 [] "hmac" { secret := some "topsecret" }).all
      (fun kv => kv.fst ≠ "X-Hub-Signature-256") = true := by
  constructor
  · rfl
  · decide

end MetaHub

namespace MetaHub

/-! ### Delivery events (claims C3, C4, C7, C8, C9)

The delivery_events row, reduced to the columns the two delivery paths read
and write.  max_attempts has database default 5 and the worker reads it as
(event.max_attempts || 5). -/

/-- A delivery_events row. -/
structure DeliveryEvent where
  id : Nat
  status : String
  attemptsCount : Nat
  maxAttempts : Nat
  nextRetryAt : Option Nat
  deliveredAt : Option Nat
  failedAt : Option Nat
  errorMessage : Option String
deriving Repr, DecidableEq

/-- The observable outcome of one outbound HTTP call: res.ok, the status
code (none on network error / timeout) and the derived error message. -/
structure AttemptOutcome where
  success : Bool
  statusCode : Option Nat := none
  errorMessage : Option String := none
deriving Repr, DecidableEq

/-- The event row inserted by the webhook receiver for a matched route
(processWhatsAppEntries lines 339-357): status pending, next_retry_at set
to the current time, attempts_count and max_attempts at their database
defaults 0 and 5. -/
def webhookNewEvent (now : Nat) (id : Nat) : DeliveryEvent :=
  { id := id, status := "pending", attemptsCount := 0, maxAttempts := 5,
    nextRetryAt := some now, deliveredAt := none, failedAt := none,
    errorMessage := none }

/-- deliverEvent of delivery-worker (lines 106-218), from the point where
the event and its destination are loaded: an inactive destination cancels
the event; otherwise the event is marked processing with attempts_count
bumped to attemptNumber, the call is made, and the final update is
delivered (next_retry_at null), dlq when attemptNumber has reached
max_attempts (next_retry_at null), or failed with exponential backoff
min(60000 * 2^(attemptNumber-1), 3600000) otherwise. -/
def deliverEvent (now : Nat) (destActive : Bool) (e : DeliveryEvent)
    (outcome : AttemptOutcome) : DeliveryEvent :=
  if destActive = false then
    { e with status := "cancelled", errorMessage := some "Destination inactive" }
  else
    let attemptNumber := e.attemptsCount + 1
    let claimed := { e with status := "processing", attemptsCount := attemptNumber }
    if outcome.success then
      { claimed with status := "delivered", deliveredAt := some now,
                     errorMessage := none, nextRetryAt := none }
    else if jsOrNat e.maxAttempts 5 ≤ attemptNumber then
      { claimed with status := "dlq", errorMessage := outcome.errorMessage,
                     failedAt := some now, nextRetryAt := none }
    else
      { claimed with status := "failed", errorMessage := outcome.errorMessage,
                     failedAt := some now,
                     nextRetryAt :=
                       some (now + min (60000 * 2 ^ (attemptNumber - 1)) 3600000) }

/-- deliverToDestination of meta-webhook (lines 191-285), the inline
delivery path: the event is marked processing with attempts_count
hard-coded to 1; on success the update sets status delivered, delivered_at
and clears error_message but does not touch next_retry_at; on failure it
sets status failed with next_retry_at = now + 60000. -/
def deliverToDestination (now : Nat) (e : DeliveryEvent)
    (outcome : AttemptOutcome) : DeliveryEvent :=
  let claimed := { e with status := "processing", attemptsCount := 1 }
  if outcome.success then
    { claimed with status := "delivered", deliveredAt := some now,
                   errorMessage := none }
  else
    { claimed with status := "failed", errorMessage := outcome.errorMessage,
                   failedAt := some now, nextRetryAt := some (now + 60000) }

/-- A supabase update over the delivery_events table: apply the change to
every row the filter chain matches. -/
def updateWhere (p : DeliveryEvent → Bool) (f : DeliveryEvent → DeliveryEvent)
    (tbl : List DeliveryEvent) : List DeliveryEvent :=
  tbl.map (fun e => if p e then f e else e)

/-- The processing transition of the worker as it is written (deliverEvent
lines 116-120): update({status processing, attempts_count}).eq("id", id) —
the filter is the event id alone. -/
def workerMarkProcessing (eventId attemptNumber : Nat)
    (tbl : List DeliveryEvent) : List DeliveryEvent :=
  updateWhere (fun e => e.id == eventId)
    (fun e => { e with status := "processing", attemptsCount := attemptNumber })
    tbl

/-- The processing transition of the inline webhook path as it is written
(deliverToDestination lines 199-203): the filter is again the event id
alone, with attempts_count hard-coded to 1. -/
def webhookMarkProcessing (eventId : Nat) (tbl : List DeliveryEvent) :
    List DeliveryEvent :=
  updateWhere (fun e => e.id == eventId)
    (fun e => { e with status := "processing", attemptsCount := 1 }) tbl

/-- The processing transition as the specification words it (claim C4): a
conditional update keyed on the expected from status, moving an event to
processing only from pending or failed. -/
def claimedMarkProcessing (eventId attemptNumber : Nat)
    (tbl : List DeliveryEvent) : List DeliveryEvent :=
  updateWhere
    (fun e => e.id == eventId && (e.status == "pending" || e.status == "failed"))
    (fun e => { e with status := "processing", attemptsCount := attemptNumber })
    tbl

/-- The reset handleResend applies before its inline attempt
(delivery-worker lines 287-295). -/
def resendReset (now : Nat) (e : DeliveryEvent) : DeliveryEvent :=
  { e with status := "pending", nextRetryAt := some now, errorMessage := none,
           failedAt := none }

/-- The result of handleResend: the error responses carry no event update
(the row is left untouched); a resent result carries the reset row and the
row after the single inline deliverEvent call. -/
inductive ResendResult where
  | notFound
  | notMember
  | invalidStatus
  | resent (reset afterAttempt : DeliveryEvent)
deriving Repr, DecidableEq

/-- handleResend of delivery-worker (lines 254-301): 404 when the event is
missing, 403 when the caller is not a member of the workspace, an error
when the status is not failed or dlq; otherwise reset the event to pending
with next_retry_at = now and cleared error, then run deliverEvent once
inline. -/
def handleResend (now : Nat) (ev : Option DeliveryEvent)
    (isMember destActive : Bool) (outcome : AttemptOutcome) : ResendResult :=
  match ev with
  | none => ResendResult.notFound
  | some e =>
    if isMember = false then ResendResult.notMember
    else if ¬(e.status = "failed" ∨ e.status = "dlq") then
      ResendResult.invalidStatus
    else
      let reset := resendReset now e
      ResendResult.resent reset (deliverEvent now destActive reset outcome)

end MetaHub

namespace MetaHub

/-! ### Route matching (claims C5, C6)

findMatchingRoutes of meta-webhook (lines 100-163): a supabase query over
routes joined with destinations, ordered by priority descending only, then
a JS loop that skips a route when both its source_id and the inbound
source_id are truthy and differ, and skips rows whose joined destination
is missing or inactive.  filter_rules is a column of routes but is neither
selected nor consulted anywhere in the function. -/

/-- The joined destination columns of the routes query. -/
structure DestRow where
  id : Nat
  url : String
  method : String
  headers : Option (List (String × String)) := none
  authType : String := "none"
  authConfig : Option AuthConfig := none
  timeoutMs : Nat := 0
  isActive : Bool := true
deriving Repr, DecidableEq

/-- A routes row (filterRules models the event_types list of the
filter_rules column; none models SQL null). -/
structure RouteRow where
  id : Nat
  workspaceId : Nat
  sourceType : String
  sourceId : Option String := none
  priority : Int := 0
  isActive : Bool := true
  deletedAt : Option Nat := none
  createdAt : Nat := 0
  filterRules : Option (List String) := none
  destination : Option DestRow := none
deriving Repr, DecidableEq

/-- The matched-route record built for each surviving row. -/
structure MatchedRoute where
  routeId : Nat
  destinationId : Nat
  workspaceId : Nat
  destinationUrl : String
  destinationMethod : String
  destinationHeaders : List (String × String)
  destinationAuthType : String
  destinationAuthConfig : AuthConfig
  destinationTimeoutMs : Nat
deriving Repr, DecidableEq

/-- The where-clauses of the routes query: source_type match, is_active
true, deleted_at null. -/
def routeQueryFilter (sourceType : String) (r : RouteRow) : Bool :=
  r.sourceType == sourceType && r.isActive && r.deletedAt == none

/-- The order clause of the routes query: priority descending (and nothing
else — ties are left to the database). -/
def routeOrder (a b : RouteRow) : Prop :=
  b.priority ≤ a.priority

instance : DecidableRel routeOrder :=
  fun a b => inferInstanceAs (Decidable (b.priority ≤ a.priority))

instance : IsTotal RouteRow routeOrder :=
  ⟨fun a b => (le_total a.priority b.priority).symm⟩

instance : IsTrans RouteRow routeOrder :=
  ⟨fun _ _ _ h h2 => le_trans h2 h⟩

/-- The JS guard
(route.source_id && sourceId && route.source_id !== sourceId): skip only
when both ids are truthy (present and non-empty) and differ. -/
def sourceMismatch (routeSourceId inboundSourceId : Option String) : Bool :=
  jsTruthy routeSourceId && jsTruthy inboundSourceId &&
    routeSourceId != inboundSourceId

/-- The record pushed for a surviving row (nullish destination fields take
the JS fallbacks of the source: headers || empty, auth_config || empty,
timeout_ms || 10000). -/
def matchedOf (r : RouteRow) (d : DestRow) : MatchedRoute :=
  { routeId := r.id, destinationId := d.id, workspaceId := r.workspaceId,
    destinationUrl := d.url, destinationMethod := d.method,
    destinationHeaders := d.headers.getD [],
    destinationAuthType := d.authType,
    destinationAuthConfig := d.authConfig.getD {},
    destinationTimeoutMs := jsOrNat d.timeoutMs 10000 }

/-- One iteration of the matching loop: none when the row is skipped. -/
def routeLoopStep (sourceId : Option String) (r : RouteRow) :
    Option MatchedRoute :=
  if sourceMismatch r.sourceId sourceId then none
  else
    match r.destination with
    | none => none
    | some d => if d.isActive = false then none else some (matchedOf r d)

/-- findMatchingRoutes of meta-webhook: query filter, priority-descending
order, then the skip loop. -/
def findMatchingRoutes (table : List RouteRow) (sourceType : String)
    (sourceId : Option String) : List MatchedRoute :=
  (List.insertionSort routeOrder (table.filter (routeQueryFilter sourceType))).filterMap
    (routeLoopStep sourceId)

/-- The route resolver as claim C6 words it: is_active, not deleted,
source_type match, and source_id equal to the inbound source_id or absent;
sorted by priority descending with creation time ascending as
tie-breaker. -/
def claimedRouteOrder (a b : RouteRow) : Prop :=
  b.priority < a.priority ∨ (a.priority = b.priority ∧ a.createdAt ≤ b.createdAt)

instance : DecidableRel claimedRouteOrder :=
  fun a b => inferInstanceAs
    (Decidable (b.priority < a.priority ∨
      (a.priority = b.priority ∧ a.createdAt ≤ b.createdAt)))

/-- The route resolver as claim C6 words it (selection and order). -/
def claimedMatchingRoutes (table : List RouteRow) (sourceType : String)
    (sourceId : Option String) : List RouteRow :=
  List.insertionSort claimedRouteOrder
    (table.filter (fun r => r.isActive && r.deletedAt == none &&
      r.sourceType == sourceType &&
      (r.sourceId == sourceId || r.sourceId == none)))

/-- One WhatsApp change of a webhook entry.  The eventType field records
the WhatsApp event classification of change.value per the spec taxonomy
(messages, status_sent, status_delivered, status_read, status_failed); the
source never reads it. -/
structure WAChange where
  field : String
  eventType : String
  phoneNumberId : Option String
deriving Repr, DecidableEq

/-- The delivery_events row inserted per matched route, reduced to the
identifying columns. -/
structure CreatedEvent where
  workspaceId : Nat
  routeId : Nat
  destinationId : Nat
  sourceType : String
  sourceEventId : Option String
  status : String
deriving Repr, DecidableEq

/-- processWhatsAppEntries of meta-webhook (lines 290-386), restricted to
one change: resolve routes for source_type whatsapp and the change's
phone_number_id, and insert one pending delivery event per matched route.
No part of the change (field, event classification) and no filter_rules
value of the route takes part in the decision. -/
def processWhatsAppChange (table : List RouteRow) (c : WAChange) :
    List CreatedEvent :=
  (findMatchingRoutes table "whatsapp" c.phoneNumberId).map (fun m =>
    { workspaceId := m.workspaceId, routeId := m.routeId,
      destinationId := m.destinationId, sourceType := "whatsapp",
      sourceEventId := c.phoneNumberId, status := "pending" })

end MetaHub

namespace MetaHub

/-! ### Concrete fixtures used by counterexamples and witnesses -/

/-- A plain active destination row. -/
def c6Dest : DestRow :=
  { id := 7, url := "https://hooks.example.net/a", method := "POST" }

/-- An active route bound to the specific source id PN-A. -/
def c6Route : RouteRow :=
  { id := 1, workspaceId := 1, sourceType := "whatsapp",
    sourceId := some "PN-A", destination := some c6Dest }

/-- A destination for the filter-rule scenario. -/
def c5Dest : DestRow :=
  { id := 9, url := "https://crm.example.net/lead", method := "POST" }

/-- Route R5 of spec scenario S5: source_type whatsapp with
filter_rules.event_types = [messages]. -/
def c5Route : RouteRow :=
  { id := 5, workspaceId := 2, sourceType := "whatsapp",
    sourceId := some "PN1", filterRules := some ["messages"],
    destination := some c5Dest }

/-- An inbound change carrying a status_read event for PN1. -/
def c5StatusChange : WAChange :=
  { field := "messages", eventType := "status_read",
    phoneNumberId := some "PN1" }

/-- The inline path outcome of a successful webhook delivery. -/
def c3Delivered : DeliveryEvent :=
  deliverToDestination 2000 (webhookNewEvent 1000 1)
    { success := true, statusCode := some 200 }

/-- An event already claimed by a concurrent worker. -/
def c4Event : DeliveryEvent :=
  { id := 1, status := "processing", attemptsCount := 1, maxAttempts := 5,
    nextRetryAt := none, deliveredAt := none, failedAt := none,
    errorMessage := none }

/-- A dlq event that has exhausted its five attempts. -/
def c8Event : DeliveryEvent :=
  { id := 2, status := "dlq", attemptsCount := 5, maxAttempts := 5,
    nextRetryAt := none, deliveredAt := none, failedAt := some 500,
    errorMessage := some "HTTP 500: boom" }

/-- A failing attempt outcome. -/
def c8Fail : AttemptOutcome :=
  { success := false, statusCode := some 500,
    errorMessage := some "HTTP 500: boom" }

/-- A fresh pending event (one worker pickup away from its first attempt). -/
def c7Event : DeliveryEvent :=
  { id := 3, status := "pending", attemptsCount := 0, maxAttempts := 5,
    nextRetryAt := some 0, deliveredAt := none, failedAt := none,
    errorMessage := none }

end MetaHub

namespace MetaHub

/-- Claim C3, counterexample.  On the inline webhook path a successful
delivery leaves next_retry_at at the value the insert gave it: the event
created at time 1000 and delivered at time 2000 ends with status
delivered, delivered_at 2000 and next_retry_at still 1000, not null. -/
theorem inline_delivered_keeps_next_retry :
    c3Delivered.status = "delivered" ∧ c3Delivered.deliveredAt = some 2000 ∧
    c3Delivered.nextRetryAt = some 1000 ∧ c3Delivered.nextRetryAt ≠ none := by
  decide

/-- Claim C3, amended.  On the worker path a successful attempt sets
status delivered, delivered_at = now and next_retry_at = null; on the
inline webhook path it sets status delivered and delivered_at = now but
leaves next_retry_at exactly as it was. -/
theorem delivered_update_fields (now : Nat) (e : DeliveryEvent)
    (outcome : AttemptOutcome) (h : outcome.success = true) :
    ((deliverEvent now true e outcome).status = "delivered" ∧
     (deliverEvent now true e outcome).deliveredAt = some now ∧
     (deliverEvent now true e outcome).nextRetryAt = none) ∧
    ((deliverToDestination now e outcome).status = "delivered" ∧
     (deliverToDestination now e outcome).deliveredAt = some now ∧
     (deliverToDestination now e outcome).nextRetryAt = e.nextRetryAt) := by
  simp [deliverEvent, deliverToDestination, h]

/-- Witness for delivered_update_fields at a concrete event. -/
theorem delivered_update_fields_witness :
    ({ success := true, statusCode := some 200 } : AttemptOutcome).success = true ∧
    (((deliverEvent 2000 true (webhookNewEvent 1000 4)
        { success := true, statusCode := some 200 }).status = "delivered" ∧
      (deliverEvent 2000 true (webhookNewEvent 1000 4)
        { success := true, statusCode := some 200 }).deliveredAt = some 2000 ∧
      (deliverEvent 2000 true (webhookNewEvent 1000 4)
        { success := true, statusCode := some 200 }).nextRetryAt = none) ∧
     ((deliverToDestination 2000 (webhookNewEvent 1000 4)
        { success := true, statusCode := some 200 }).status = "delivered" ∧
      (deliverToDestination 2000 (webhookNewEvent 1000 4)
        { success := true, statusCode := some 200 }).deliveredAt = some 2000 ∧
      (deliverToDestination 2000 (webhookNewEvent 1000 4)
        { success := true, statusCode := some 200 }).nextRetryAt =
        (webhookNewEvent 1000 4).nextRetryAt)) :=
  ⟨rfl, delivered_update_fields 2000 (webhookNewEvent 1000 4) _ rfl⟩

/-- Claim C4, counterexample.  The processing transition of the worker is
keyed on the event id alone: applied to an event whose status is already
processing it fires again and bumps attempts_count, where the conditional
update the claim describes would leave the row untouched. -/
theorem processing_update_counterexample :
    workerMarkProcessing 1 2 [c4Event] = [{ c4Event with attemptsCount := 2 }] ∧
    claimedMarkProcessing 1 2 [c4Event] = [c4Event] ∧
    ({ c4Event with attemptsCount := 2 } : DeliveryEvent) ≠ c4Event := by
  decide

/-- Claim C4, amended.  Both delivery paths update delivery_events rows
filtered by id alone: a row with the matching id is moved to processing
whatever its current status (pending, failed, processing, delivered, …),
and rows with other ids are untouched.  No update in either path carries a
status guard, so nothing prevents two concurrent processing transitions on
the same event. -/
theorem processing_update_keyed_on_id_only (eid n : Nat) (e : DeliveryEvent)
    (h : e.id = eid) :
    workerMarkProcessing eid n [e] =
      [{ e with status := "processing", attemptsCount := n }] ∧
    webhookMarkProcessing eid [e] =
      [{ e with status := "processing", attemptsCount := 1 }] ∧
    (∀ e2 : DeliveryEvent, e2.id ≠ eid →
      workerMarkProcessing eid n [e2] = [e2] ∧
      webhookMarkProcessing eid [e2] = [e2]) := by
  refine ⟨?_, ?_, ?_⟩
  · simp [workerMarkProcessing, updateWhere, h]
  · simp [webhookMarkProcessing, updateWhere, h]
  · intro e2 h2
    constructor <;>
      simp [workerMarkProcessing, webhookMarkProcessing, updateWhere, h2]

/-- Witness for processing_update_keyed_on_id_only at a concrete event. -/
theorem processing_update_keyed_on_id_only_witness :
    c4Event.id = 1 ∧
    (workerMarkProcessing 1 2 [c4Event] =
      [{ c4Event with status := "processing", attemptsCount := 2 }] ∧
    webhookMarkProcessing 1 [c4Event] =
      [{ c4Event with status := "processing", attemptsCount := 1 }] ∧
    (∀ e2 : DeliveryEvent, e2.id ≠ 1 →
      workerMarkProcessing 1 2 [e2] = [e2] ∧
      webhookMarkProcessing 1 [e2] = [e2])) :=
  ⟨rfl, processing_update_keyed_on_id_only 1 2 c4Event rfl⟩

/-- Claim C7 (confirmed).  For a failing attempt on an active destination
with a positive stored max_attempts: when the bumped attempts_count is
still below max_attempts the event becomes failed with next_retry_at =
now + min(60000 * 2^(attempts_count - 1), 3600000) (the exponent written
here with the pre-bump count, which equals the bumped count minus one);
once the bumped count reaches max_attempts it becomes dlq with
next_retry_at null. -/
theorem worker_backoff_and_dlq (now : Nat) (e : DeliveryEvent)
    (outcome : AttemptOutcome) (hfail : outcome.success = false)
    (hmax : 0 < e.maxAttempts) :
    (e.attemptsCount + 1 < e.maxAttempts →
      (deliverEvent now true e outcome).status = "failed" ∧
      (deliverEvent now true e outcome).attemptsCount = e.attemptsCount + 1 ∧
      (deliverEvent now true e outcome).nextRetryAt =
        some (now + min (60000 * 2 ^ e.attemptsCount) 3600000)) ∧
    (e.maxAttempts ≤ e.attemptsCount + 1 →
      (deliverEvent now true e outcome).status = "dlq" ∧
      (deliverEvent now true e outcome).attemptsCount = e.attemptsCount + 1 ∧
      (deliverEvent now true e outcome).nextRetryAt = none) := by
  have hne : e.maxAttempts ≠ 0 := by omega
  have hjs : jsOrNat e.maxAttempts 5 = e.maxAttempts := by
    simp [jsOrNat, hne]
  constructor
  · intro hlt
    have hnot : ¬ jsOrNat e.maxAttempts 5 ≤ e.attemptsCount + 1 := by omega
    simp [deliverEvent, hfail, hnot]
  · intro hge
    have hyes : jsOrNat e.maxAttempts 5 ≤ e.attemptsCount + 1 := by omega
    simp [deliverEvent, hfail, hyes]

/-- Witness for worker_backoff_and_dlq: the first failing attempt of a
fresh event is scheduled for retry one minute later. -/
theorem worker_backoff_and_dlq_witness :
    c8Fail.success = false ∧ 0 < c7Event.maxAttempts ∧
    c7Event.attemptsCount + 1 < c7Event.maxAttempts ∧
    ((deliverEvent 100 true c7Event c8Fail).status = "failed" ∧
     (deliverEvent 100 true c7Event c8Fail).attemptsCount =
       c7Event.attemptsCount + 1 ∧
     (deliverEvent 100 true c7Event c8Fail).nextRetryAt =
       some (100 + min (60000 * 2 ^ c7Event.attemptsCount) 3600000)) :=
  ⟨rfl, by decide, by decide,
    (worker_backoff_and_dlq 100 c7Event c8Fail rfl (by decide)).1 (by decide)⟩

/-- Claim C8, counterexample.  A dlq event with attempts_count = 5 =
max_attempts is resent; the inline attempt fails again and the worker's
terminal update takes the dlq branch (6 is not below 5), so the status
returns to dlq, not to failed. -/
theorem resend_from_dlq_fails_back_to_dlq :
    handleResend 9000 (some c8Event) true true c8Fail =
      ResendResult.resent (resendReset 9000 c8Event)
        (deliverEvent 9000 true (resendReset 9000 c8Event) c8Fail) ∧
    (deliverEvent 9000 true (resendReset 9000 c8Event) c8Fail).status = "dlq" ∧
    (deliverEvent 9000 true (resendReset 9000 c8Event) c8Fail).status ≠
      "failed" := by
  decide

/-- Claim C8, amended.  Resending a dlq event whose bumped attempts_count
has reached (event.max_attempts || 5) and whose single inline attempt
fails again puts the event back into dlq, not failed: the resend reset
does not touch attempts_count, so the worker's dlq branch applies. -/
theorem resend_at_max_attempts_returns_to_dlq (now : Nat) (e : DeliveryEvent)
    (outcome : AttemptOutcome) (hst : e.status = "dlq")
    (hmax : jsOrNat e.maxAttempts 5 ≤ e.attemptsCount + 1)
    (hfail : outcome.success = false) :
    handleResend now (some e) true true outcome =
      ResendResult.resent (resendReset now e)
        (deliverEvent now true (resendReset now e) outcome) ∧
    (deliverEvent now true (resendReset now e) outcome).status = "dlq" := by
  constructor
  · simp [handleResend, hst]
  · simp [deliverEvent, resendReset, hfail, hmax]

/-- Witness for resend_at_max_attempts_returns_to_dlq at the concrete dlq
event with five spent attempts. -/
theorem resend_at_max_attempts_returns_to_dlq_witness :
    c8Event.status = "dlq" ∧
    jsOrNat c8Event.maxAttempts 5 ≤ c8Event.attemptsCount + 1 ∧
    c8Fail.success = false ∧
    (handleResend 9999 (some c8Event) true true c8Fail =
      ResendResult.resent (resendReset 9999 c8Event)
        (deliverEvent 9999 true (resendReset 9999 c8Event) c8Fail) ∧
    (deliverEvent 9999 true (resendReset 9999 c8Event) c8Fail).status =
      "dlq") :=
  ⟨rfl, by decide, rfl,
    resend_at_max_attempts_returns_to_dlq 9999 c8Event c8Fail rfl (by decide)
      rfl⟩

/-- Claim C9 (confirmed).  handleResend answers notFound when the event is
missing and notMember when the caller is outside the workspace; a status
other than failed or dlq yields the invalid-status error, and the error
results carry no update of the event row.  From failed or dlq the event is
reset to pending with next_retry_at = now, cleared error_message and
cleared failed_at, and exactly one inline deliverEvent call is made on the
reset row. -/
theorem resend_guard_and_reset (now : Nat) (e : DeliveryEvent)
    (destActive : Bool) (outcome : AttemptOutcome) :
    handleResend now none true destActive outcome = ResendResult.notFound ∧
    handleResend now (some e) false destActive outcome =
      ResendResult.notMember ∧
    (¬(e.status = "failed" ∨ e.status = "dlq") →
      handleResend now (some e) true destActive outcome =
        ResendResult.invalidStatus) ∧
    ((e.status = "failed" ∨ e.status = "dlq") →
      handleResend now (some e) true destActive outcome =
        ResendResult.resent (resendReset now e)
          (deliverEvent now destActive (resendReset now e) outcome) ∧
      (resendReset now e).status = "pending" ∧
      (resendReset now e).nextRetryAt = some now ∧
      (resendReset now e).errorMessage = none ∧
      (resendReset now e).attemptsCount = e.attemptsCount) := by
  refine ⟨rfl, rfl, ?_, ?_⟩
  · intro hbad
    simp [handleResend, hbad]
  · intro hok
    refine ⟨?_, rfl, rfl, rfl, rfl⟩
    simp [handleResend, hok]

/-- Witness for resend_guard_and_reset at the concrete dlq event. -/
theorem resend_guard_and_reset_witness :
    (c8Event.status = "failed" ∨ c8Event.status = "dlq") ∧
    (handleResend 9001 (some c8Event) true true c8Fail =
      ResendResult.resent (resendReset 9001 c8Event)
        (deliverEvent 9001 true (resendReset 9001 c8Event) c8Fail) ∧
    (resendReset 9001 c8Event).status = "pending" ∧
    (resendReset 9001 c8Event).nextRetryAt = some 9001 ∧
    (resendReset 9001 c8Event).errorMessage = none ∧
    (resendReset 9001 c8Event).attemptsCount = c8Event.attemptsCount) :=
  ⟨Or.inr rfl,
    (resend_guard_and_reset 9001 c8Event true c8Fail).2.2.2 (Or.inr rfl)⟩

end MetaHub

namespace MetaHub

/-- Unfolding of the query filter into its three clauses. -/
theorem routeQueryFilter_eq_true (st : String) (r : RouteRow) :
    routeQueryFilter st r = true ↔
      r.sourceType = st ∧ r.isActive = true ∧ r.deletedAt = none := by
  simp [routeQueryFilter, Bool.and_eq_true, beq_iff_eq, and_assoc]

/-- Unfolding of one loop iteration: a matched record is produced exactly
when the source ids do not mismatch and the joined destination exists and
is active. -/
theorem routeLoopStep_eq_some (sid : Option String) (r : RouteRow)
    (m : MatchedRoute) :
    routeLoopStep sid r = some m ↔
      sourceMismatch r.sourceId sid = false ∧
      ∃ d, r.destination = some d ∧ d.isActive = true ∧ m = matchedOf r d := by
  unfold routeLoopStep
  cases hsm : sourceMismatch r.sourceId sid
  · cases hd : r.destination
    · simp
    · rename_i d
      by_cases hb : d.isActive = false
      · simp [hb]
      · have hb2 : d.isActive = true := by
          cases h2 : d.isActive
          · exact absurd h2 hb
          · rfl
        simp only [Bool.false_eq_true, if_false, if_neg hb,
          Option.some.injEq, true_and]
        constructor
        · intro h
          exact ⟨d, rfl, hb2, h.symm⟩
        · rintro ⟨d2, hd2, -, hm⟩
          cases hd2
          exact hm.symm
  · simp

/-- Claim C6, counterexample.  A route bound to the specific source id
PN-A is returned by the code for an inbound webhook with an absent
source_id (the JS guard only skips when both ids are truthy), while the
resolver described by the claim returns nothing for that input. -/
theorem route_resolver_counterexample :
    findMatchingRoutes [c6Route] "whatsapp" none =
      [matchedOf c6Route c6Dest] ∧
    claimedMatchingRoutes [c6Route] "whatsapp" none = [] := by
  decide

/-- Claim C6, amended.  The resolver returns exactly the matched records
of the routes that are active, not soft-deleted, of the matching
source_type, whose joined destination exists and is active, and whose
source_id does not conflict with the inbound one — where a conflict needs
both ids present and non-empty and different, so a route with a specific
source_id is returned whenever the inbound source_id is absent.  The
result is ordered by priority descending only; no creation-time
tie-breaker exists. -/
theorem route_resolver_amended (table : List RouteRow) (st : String)
    (sid : Option String) :
    (∀ m, m ∈ findMatchingRoutes table st sid ↔
      ∃ r, r ∈ table ∧ r.sourceType = st ∧ r.isActive = true ∧
        r.deletedAt = none ∧ sourceMismatch r.sourceId sid = false ∧
        ∃ d, r.destination = some d ∧ d.isActive = true ∧
          m = matchedOf r d) ∧
    (∃ rs : List RouteRow, List.Sorted routeOrder rs ∧
      (∀ r, r ∈ rs ↔ r ∈ table ∧ routeQueryFilter st r = true) ∧
      findMatchingRoutes table st sid = rs.filterMap (routeLoopStep sid)) := by
  constructor
  · intro m
    unfold findMatchingRoutes
    rw [List.mem_filterMap]
    constructor
    · rintro ⟨r, hr, hstep⟩
      rw [List.mem_insertionSort, List.mem_filter] at hr
      obtain ⟨hrt, hq⟩ := hr
      rw [routeQueryFilter_eq_true] at hq
      rw [routeLoopStep_eq_some] at hstep
      exact ⟨r, hrt, hq.1, hq.2.1, hq.2.2, hstep.1, hstep.2⟩
    · rintro ⟨r, hrt, h1, h2, h3, hsm, d, hd, hda, hm⟩
      refine ⟨r, ?_, ?_⟩
      · rw [List.mem_insertionSort, List.mem_filter, routeQueryFilter_eq_true]
        exact ⟨hrt, h1, h2, h3⟩
      · rw [routeLoopStep_eq_some]
        exact ⟨hsm, d, hd, hda, hm⟩
  · refine ⟨List.insertionSort routeOrder (table.filter (routeQueryFilter st)),
      List.sorted_insertionSort routeOrder _, ?_, rfl⟩
    intro r
    rw [List.mem_insertionSort, List.mem_filter]

/-- Claim C5 (code_bug evidence).  Route R5 of scenario S5 restricts
event_types to [messages]; the inbound change carrying a status_read
event still creates exactly one delivery event for it, and the outcome is
bit-identical whatever the filter_rules value is: the webhook never reads
filter_rules. -/
theorem filter_rules_not_enforced :
    (processWhatsAppChange [c5Route] c5StatusChange).length = 1 ∧
    processWhatsAppChange [c5Route] c5StatusChange =
      processWhatsAppChange [{ c5Route with filterRules := none }]
        c5StatusChange ∧
    (∀ fr : Option (List String),
      processWhatsAppChange [{ c5Route with filterRules := fr }]
          c5StatusChange =
        processWhatsAppChange [c5Route] c5StatusChange) := by
  refine ⟨by decide, by decide, ?_⟩
  intro fr
  rfl

end MetaHub

namespace MetaHub

/-! ### OAuth state signing (claim C1)

signState / verifyState of the meta-oauth edge function.  The payload is
the record handleStart builds: wid = workspace_id, uid = user.id,
ts = Date.now().  JSON.stringify / JSON.parse and the WebCrypto HMAC are
platform primitives: stringify is modelled byte-exactly for identifier
strings free of characters needing JSON escapes (the hypotheses of the
theorems say so), parse by the decoder of that canonical shape, and
HMAC-SHA256 by an explicit function parameter mac (key, data ↦ digest
bytes), as Date.now() is modelled by the parameter now. -/

/-- The state payload of handleStart: keys wid, uid, ts in that order. -/
structure StatePayload where
  wid : List Nat
  uid : List Nat
  ts : Nat
deriving Repr, DecidableEq

/-- Decimal ASCII digits of a non-negative number, most significant
first. -/
def natDigits (n : Nat) : List Nat :=
  if n < 10 then [48 + n]
  else natDigits (n / 10) ++ [48 + n % 10]
decreasing_by exact Nat.div_lt_self (by omega) (by omega)

/-- Digit bytes 0-9. -/
def isDigitByte (b : Nat) : Bool :=
  48 ≤ b && b ≤ 57

/-- Parse a non-empty all-digit byte list as a decimal number. -/
def parseDigits (l : List Nat) : Option Nat :=
  if l = [] then none
  else if l.all isDigitByte then
    some (l.foldl (fun a d => a * 10 + (d - 48)) 0)
  else none

/-- JSON.stringify of the state payload (byte 34 is the quote, byte 125
the closing brace), for ids without characters needing escapes. -/
def encodeStatePayload (p : StatePayload) : List Nat :=
  strBytes "\x7b\"wid\":\"" ++ p.wid ++ [34] ++ strBytes ",\"uid\":\"" ++
    p.uid ++ [34] ++ strBytes ",\"ts\":" ++ natDigits p.ts ++ [125]

/-- Drop an expected literal prefix; none when the input does not start
with it. -/
def dropLiteral : List Nat → List Nat → Option (List Nat)
  | [], l => some l
  | _ :: _, [] => none
  | p :: ps, x :: xs => if x = p then dropLiteral ps xs else none

/-- Split at the first occurrence of a byte; none when it never occurs. -/
def takeUntilByte (b : Nat) : List Nat → Option (List Nat × List Nat)
  | [] => none
  | x :: xs =>
    if x = b then some ([], xs)
    else
      match takeUntilByte b xs with
      | none => none
      | some (pre, post) => some (x :: pre, post)

/-- JSON.parse of the canonical stringify output above: read the skeleton
literals, the two quoted ids and the decimal ts. -/
def decodeStatePayload (l : List Nat) : Option StatePayload := do
  let r1 ← dropLiteral (strBytes "\x7b\"wid\":\"") l
  let (wid, r2) ← takeUntilByte 34 r1
  let r3 ← dropLiteral (strBytes ",\"uid\":\"") r2
  let (uid, r4) ← takeUntilByte 34 r3
  let r5 ← dropLiteral (strBytes ",\"ts\":") r4
  let (tsBytes, r6) ← takeUntilByte 125 r5
  if r6 = [] then
    let ts ← parseDigits tsBytes
    pure { wid := wid, uid := uid, ts := ts }
  else none

/-- String.prototype.split on a one-character separator, JS semantics
(an empty input yields one empty part). -/
def splitOnChar (sep : Char) : List Char → List (List Char)
  | [] => [[]]
  | c :: rest =>
    if c = sep then [] :: splitOnChar sep rest
    else
      match splitOnChar sep rest with
      | [] => [[c]]
      | h :: t => (c :: h) :: t

/-- The failure modes of verifyState: the HttpErrors the source throws
(invalid state parameter, invalid signature, expired) and the exceptions
escaping from atob, from the null regex match, and from JSON.parse. -/
inductive VerifyError where
  | invalidState
  | atobThrow
  | matchThrow
  | invalidSignature
  | expired
  | parseThrow
deriving Repr, DecidableEq

/-- signState of meta-oauth (part of the repository's meta-oauth edge
function): serialize the payload, then btoa(data) + "." +
hex(HMAC-SHA256(META_APP_SECRET, data)). -/
def signState (mac : List Nat → List Nat → List Nat) (secret : List Nat)
    (p : StatePayload) : List Char :=
  base64Encode (encodeStatePayload p) ++
    '.' :: bytesToHex (mac secret (encodeStatePayload p))

/-- The state parameter handleStart answers with: signState over
the payload with wid = workspace_id, uid = user.id, ts = Date.now(). -/
def startState (mac : List Nat → List Nat → List Nat) (secret : List Nat)
    (workspaceId userId : List Nat) (now : Nat) : List Char :=
  signState mac secret { wid := workspaceId, uid := userId, ts := now }

/-- verifyState of meta-oauth: split the state at ".", reject when either
part is missing or empty, atob the first part, read the hex signature
bytes of the second (throwing when no two-character chunk exists), compare
them with the recomputed HMAC of the data under the configured secret,
JSON.parse the data, and reject a payload whose ts is more than 10 minutes
(600000 ms) in the past. -/
def verifyState (mac : List Nat → List Nat → List Nat) (secret : List Nat)
    (now : Nat) (state : List Char) : Except VerifyError StatePayload :=
  if (splitOnChar '.' state).getD 0 [] = [] ∨
      (splitOnChar '.' state).getD 1 [] = [] then
    Except.error VerifyError.invalidState
  else
    match base64Decode ((splitOnChar '.' state).getD 0 []) with
    | none => Except.error VerifyError.atobThrow
    | some data =>
      if ((splitOnChar '.' state).getD 1 []).length < 2 then
        Except.error VerifyError.matchThrow
      else if mac secret data ≠ hexPairs ((splitOnChar '.' state).getD 1 []) then
        Except.error VerifyError.invalidSignature
      else
        match decodeStatePayload data with
        | none => Except.error VerifyError.parseThrow
        | some p =>
          if now - p.ts > 600000 then Except.error VerifyError.expired
          else Except.ok p

end MetaHub

namespace MetaHub

/-! ### Codec lemmas for the OAuth state -/

/-- b64Index inverts b64Char on sextets. -/
theorem b64Index_b64Char {k : Nat} (h : k < 64) :
    b64Index (b64Char k) = some k :=
  (by decide : ∀ j : Fin 64, b64Index (b64Char j.val) = some j.val) ⟨k, h⟩

/-- No base64 alphabet character is the dot separator. -/
theorem b64Char_ne_dot {k : Nat} (h : k < 64) : b64Char k ≠ '.' :=
  (by decide : ∀ j : Fin 64, b64Char j.val ≠ '.') ⟨k, h⟩

/-- No base64 alphabet character is the padding sign. -/
theorem b64Char_ne_pad {k : Nat} (h : k < 64) : b64Char k ≠ '=' :=
  (by decide : ∀ j : Fin 64, b64Char j.val ≠ '=') ⟨k, h⟩

/-- hexVal inverts hexDigit on nibbles. -/
theorem hexVal_hexDigit {k : Nat} (h : k < 16) :
    hexVal (hexDigit k) = some k :=
  (by decide : ∀ j : Fin 16, hexVal (hexDigit j.val) = some j.val) ⟨k, h⟩

/-- No hex digit is the dot separator. -/
theorem hexDigit_ne_dot {k : Nat} (h : k < 16) : hexDigit k ≠ '.' :=
  (by decide : ∀ j : Fin 16, hexDigit j.val ≠ '.') ⟨k, h⟩

/-- base64Encode yields the empty string only on empty input. -/
theorem base64Encode_nil_iff (l : List Nat) :
    base64Encode l = [] ↔ l = [] := by
  cases l with
  | nil => simp [base64Encode]
  | cons a t =>
    cases t with
    | nil => simp [base64Encode]
    | cons b t2 =>
      cases t2 with
      | nil => simp [base64Encode]
      | cons c t3 => simp [base64Encode]

/-- The base64 rendering of a byte string contains no dot. -/
theorem base64Encode_no_dot (l : List Nat) (h : ∀ b ∈ l, b < 256) :
    ∀ c ∈ base64Encode l, c ≠ '.' := by
  induction l using base64Encode.induct with
  | case1 => simp [base64Encode]
  | case2 a =>
    have ha := h a (by simp)
    intro c hc
    simp only [base64Encode, List.mem_cons, List.not_mem_nil, or_false] at hc
    rcases hc with rfl | rfl | rfl | rfl
    · exact b64Char_ne_dot (by omega)
    · exact b64Char_ne_dot (by omega)
    · decide
    · decide
  | case3 a b =>
    have ha := h a (by simp)
    have hb := h b (by simp)
    intro c hc
    simp only [base64Encode, List.mem_cons, List.not_mem_nil, or_false] at hc
    rcases hc with rfl | rfl | rfl | rfl
    · exact b64Char_ne_dot (by omega)
    · exact b64Char_ne_dot (by omega)
    · exact b64Char_ne_dot (by omega)
    · decide
  | case4 a b c rest ih =>
    have ha := h a (by simp)
    have hb := h b (by simp)
    have hc2 := h c (by simp)
    have hrest : ∀ x ∈ rest, x < 256 := fun x hx => h x (by simp [hx])
    intro d hd
    simp only [base64Encode, List.mem_cons] at hd
    rcases hd with rfl | rfl | rfl | rfl | hd
    · exact b64Char_ne_dot (by omega)
    · exact b64Char_ne_dot (by omega)
    · exact b64Char_ne_dot (by omega)
    · exact b64Char_ne_dot (by omega)
    · exact ih hrest d hd

/-- Decoding inverts encoding on byte strings. -/
theorem base64_roundtrip (l : List Nat) (h : ∀ b ∈ l, b < 256) :
    base64Decode (base64Encode l) = some l := by
  induction l using base64Encode.induct with
  | case1 => rfl
  | case2 a =>
    have ha := h a (by simp)
    rw [base64Encode, base64Decode, if_pos ⟨rfl, rfl, rfl⟩,
      b64Index_b64Char (show a / 4 < 64 by omega),
      b64Index_b64Char (show a % 4 * 16 < 64 by omega)]
    show some [a / 4 * 4 + a % 4 * 16 / 16] = some [a]
    simp only [Option.some.injEq, List.cons.injEq, and_true]
    omega
  | case3 a b =>
    have ha := h a (by simp)
    have hb := h b (by simp)
    have hpad : b64Char (b % 16 * 4) ≠ '=' := b64Char_ne_pad (by omega)
    rw [base64Encode, base64Decode,
      if_neg (by rintro ⟨-, hh, -⟩; exact hpad hh),
      if_pos (And.intro rfl rfl),
      b64Index_b64Char (show a / 4 < 64 by omega),
      b64Index_b64Char (show a % 4 * 16 + b / 16 < 64 by omega),
      b64Index_b64Char (show b % 16 * 4 < 64 by omega)]
    show some [a / 4 * 4 + (a % 4 * 16 + b / 16) / 16,
      (a % 4 * 16 + b / 16) % 16 * 16 + b % 16 * 4 / 4] = some [a, b]
    simp only [Option.some.injEq, List.cons.injEq, and_true]
    constructor
    · omega
    · omega
  | case4 a b c rest ih =>
    have ha := h a (by simp)
    have hb := h b (by simp)
    have hc2 := h c (by simp)
    have hrest : ∀ x ∈ rest, x < 256 := fun x hx => h x (by simp [hx])
    have hpad : b64Char (c % 64) ≠ '=' := b64Char_ne_pad (by omega)
    rw [base64Encode, base64Decode,
      if_neg (by rintro ⟨-, -, hh⟩; exact hpad hh),
      if_neg (by rintro ⟨-, hh⟩; exact hpad hh),
      b64Index_b64Char (show a / 4 < 64 by omega),
      b64Index_b64Char (show a % 4 * 16 + b / 16 < 64 by omega),
      b64Index_b64Char (show b % 16 * 4 + c / 64 < 64 by omega),
      b64Index_b64Char (show c % 64 < 64 by omega)]
    show (base64Decode (base64Encode rest)).bind (fun tail =>
      some ((a / 4 * 4 + (a % 4 * 16 + b / 16) / 16) ::
        ((a % 4 * 16 + b / 16) % 16 * 16 + (b % 16 * 4 + c / 64) / 4) ::
        ((b % 16 * 4 + c / 64) % 4 * 64 + c % 64) :: tail)) =
      some (a :: b :: c :: rest)
    rw [ih hrest]
    show some ((a / 4 * 4 + (a % 4 * 16 + b / 16) / 16) ::
      ((a % 4 * 16 + b / 16) % 16 * 16 + (b % 16 * 4 + c / 64) / 4) ::
      ((b % 16 * 4 + c / 64) % 4 * 64 + c % 64) :: rest) =
      some (a :: b :: c :: rest)
    have h1 : a / 4 * 4 + (a % 4 * 16 + b / 16) / 16 = a := by omega
    have h2 : (a % 4 * 16 + b / 16) % 16 * 16 + (b % 16 * 4 + c / 64) / 4 =
        b := by omega
    have h3 : (b % 16 * 4 + c / 64) % 4 * 64 + c % 64 = c := by omega
    rw [h1, h2, h3]

/-- The hex rendering of a byte string contains no dot. -/
theorem bytesToHex_no_dot (l : List Nat) (h : ∀ b ∈ l, b < 256) :
    ∀ c ∈ bytesToHex l, c ≠ '.' := by
  intro c hc
  simp only [bytesToHex, hexByte, List.mem_flatMap, List.mem_cons,
    List.not_mem_nil, or_false] at hc
  obtain ⟨b, hb, hcb⟩ := hc
  have hb2 := h b hb
  rcases hcb with rfl | rfl
  · exact hexDigit_ne_dot (by omega)
  · exact hexDigit_ne_dot (by omega)

/-- The hex rendering has twice the length of the byte string. -/
theorem bytesToHex_length (l : List Nat) :
    (bytesToHex l).length = 2 * l.length := by
  induction l with
  | nil => rfl
  | cons b rest ih =>
    simp only [bytesToHex] at ih ⊢
    rw [List.flatMap_cons]
    simp only [List.length_append, List.length_cons, ih, hexByte,
      List.length_nil]
    omega

/-- Reading the hex pairs back inverts the hex rendering. -/
theorem hexPairs_bytesToHex (l : List Nat) (h : ∀ b ∈ l, b < 256) :
    hexPairs (bytesToHex l) = l := by
  induction l with
  | nil => rfl
  | cons b rest ih =>
    have hb := h b (by simp)
    have hrest : ∀ x ∈ rest, x < 256 := fun x hx => h x (by simp [hx])
    have hexp : bytesToHex (b :: rest) =
        hexDigit (b / 16) :: hexDigit (b % 16) :: bytesToHex rest := by
      simp [bytesToHex, hexByte]
    rw [hexp, hexPairs, parseHexPair,
      hexVal_hexDigit (show b / 16 < 16 by omega),
      hexVal_hexDigit (show b % 16 < 16 by omega), ih hrest]
    show (16 * (b / 16) + b % 16) :: rest = b :: rest
    simp only [List.cons.injEq, and_true]
    omega

end MetaHub

namespace MetaHub

/-! ### Payload serialization lemmas -/

/-- The decimal rendering is never empty. -/
theorem natDigits_ne_nil (n : Nat) : natDigits n ≠ [] := by
  induction n using natDigits.induct with
  | case1 n h => rw [natDigits]; simp [h]
  | case2 n h ih => rw [natDigits]; simp [h]

/-- Every byte of the decimal rendering is an ASCII digit. -/
theorem natDigits_bounds (n : Nat) : ∀ d ∈ natDigits n, 48 ≤ d ∧ d ≤ 57 := by
  induction n using natDigits.induct with
  | case1 n h =>
    intro d hd
    rw [natDigits] at hd
    simp [h] at hd
    omega
  | case2 n h ih =>
    intro d hd
    rw [natDigits] at hd
    simp [h, List.mem_append] at hd
    rcases hd with hd | rfl
    · exact ih d hd
    · omega

/-- Folding the digit bytes back accumulates the rendered number. -/
theorem natDigits_foldl (n : Nat) : ∀ acc : Nat,
    (natDigits n).foldl (fun a d => a * 10 + (d - 48)) acc =
      acc * 10 ^ (natDigits n).length + n := by
  induction n using natDigits.induct with
  | case1 n h =>
    intro acc
    rw [natDigits]
    simp [h]
  | case2 n h ih =>
    intro acc
    rw [natDigits]
    simp only [h, if_false, List.foldl_append, List.length_append,
      List.foldl_cons, List.foldl_nil, List.length_cons, List.length_nil]
    rw [ih acc]
    have hx : 48 + n % 10 - 48 = n % 10 := by omega
    rw [hx, pow_succ]
    have hdm := Nat.div_add_mod n 10
    generalize (natDigits (n / 10)).length = L
    ring_nf
    omega

/-- parseDigits inverts natDigits. -/
theorem parseDigits_natDigits (n : Nat) :
    parseDigits (natDigits n) = some n := by
  unfold parseDigits
  rw [if_neg (natDigits_ne_nil n)]
  have hall : (natDigits n).all isDigitByte = true := by
    rw [List.all_eq_true]
    intro d hd
    have := natDigits_bounds n d hd
    simp only [isDigitByte, Bool.and_eq_true, decide_eq_true_eq]
    omega
  rw [if_pos hall, natDigits_foldl n 0]
  simp

/-- dropLiteral removes exactly the expected prefix. -/
theorem dropLiteral_append (pre rest : List Nat) :
    dropLiteral pre (pre ++ rest) = some rest := by
  induction pre with
  | nil => rfl
  | cons p ps ih => simp [dropLiteral, ih]

/-- takeUntilByte splits at the first occurrence of the byte. -/
theorem takeUntilByte_append {b : Nat} {pre : List Nat} (h : b ∉ pre)
    (rest : List Nat) :
    takeUntilByte b (pre ++ b :: rest) = some (pre, rest) := by
  induction pre with
  | nil => simp [takeUntilByte]
  | cons x xs ih =>
    have hx : ¬ x = b := by rintro rfl; exact h (by simp)
    have hxs : b ∉ xs := fun hh => h (by simp [hh])
    simp [takeUntilByte, hx, ih hxs]

/-- Decoding the canonical serialization recovers the payload, for ids
free of the quote byte. -/
theorem decodeStatePayload_encode (p : StatePayload)
    (hw : 34 ∉ p.wid) (hu : 34 ∉ p.uid) :
    decodeStatePayload (encodeStatePayload p) = some p := by
  have hts : (125 : Nat) ∉ natDigits p.ts := by
    intro hh
    have := natDigits_bounds p.ts 125 hh
    omega
  unfold decodeStatePayload encodeStatePayload
  simp only [List.append_assoc, List.cons_append, List.singleton_append,
    List.nil_append, dropLiteral_append, takeUntilByte_append hw,
    takeUntilByte_append hu, takeUntilByte_append hts,
    Option.bind_eq_bind, Option.some_bind', parseDigits_natDigits,
    eq_self_iff_true, if_true]
  rfl

/-- The serialization is never the empty string. -/
theorem encodeStatePayload_ne_nil (p : StatePayload) :
    encodeStatePayload p ≠ [] := by
  simp [encodeStatePayload, strBytes]

/-- Every byte of the serialization is below 256, for latin-1 ids. -/
theorem encodeStatePayload_bytes (p : StatePayload)
    (hw : ∀ b ∈ p.wid, b < 256) (hu : ∀ b ∈ p.uid, b < 256) :
    ∀ b ∈ encodeStatePayload p, b < 256 := by
  intro b hb
  have hlit1 : ∀ x ∈ strBytes "\x7b\"wid\":\"", x < 256 := by decide
  have hlit2 : ∀ x ∈ strBytes ",\"uid\":\"", x < 256 := by decide
  have hlit3 : ∀ x ∈ strBytes ",\"ts\":", x < 256 := by decide
  simp only [encodeStatePayload, List.append_assoc, List.mem_append,
    List.mem_cons, List.mem_singleton, List.not_mem_nil, or_false] at hb
  rcases hb with hb | hb | hb | hb | hb | hb | hb | hb | hb <;>
    first
      | exact hlit1 b hb
      | exact hlit2 b hb
      | exact hlit3 b hb
      | exact hw b hb
      | exact hu b hb
      | (have hdig := natDigits_bounds p.ts b hb; omega)
      | omega

/-! ### JS split lemmas -/

/-- Splitting a separator-free string yields one part. -/
theorem splitOnChar_no_sep (sep : Char) (l : List Char)
    (h : ∀ c ∈ l, c ≠ sep) : splitOnChar sep l = [l] := by
  induction l with
  | nil => rfl
  | cons c rest ih =>
    have hc : ¬ c = sep := h c (by simp)
    have hrest : ∀ x ∈ rest, x ≠ sep := fun x hx => h x (by simp [hx])
    rw [splitOnChar]
    simp [hc, ih hrest]

/-- Splitting around one separator yields the prefix and the split of the
suffix. -/
theorem splitOnChar_append (sep : Char) (a bpart : List Char)
    (ha : ∀ c ∈ a, c ≠ sep) :
    splitOnChar sep (a ++ sep :: bpart) = a :: splitOnChar sep bpart := by
  induction a with
  | nil =>
    rw [List.nil_append, splitOnChar]
    simp
  | cons c rest ih =>
    have hc : ¬ c = sep := ha c (by simp)
    have hrest : ∀ x ∈ rest, x ≠ sep := fun x hx => ha x (by simp [hx])
    rw [List.cons_append, splitOnChar]
    simp only [hc, if_false, ih hrest]

end MetaHub

namespace MetaHub

/-- Claim C1 (confirmed).  For the OAuth start/callback pair: (i) the
state parameter handleStart returns is base64(payload) + "." +
hex(HMAC_SHA256(secret, payload)) over the payload with keys wid, uid and
ts = epoch milliseconds; (ii) for every well-formed payload,
verify(sign(p)) succeeds and returns exactly p iff the verifier holds the
same signing secret (the same mac keyed by it) and now - p.ts is at most
10 minutes (600000 ms); (iii) any state verifyState accepts carries a
signature equal to the recomputed HMAC of its data under the verifier's
secret and a ts at most 10 minutes old — states with a signature mismatch
or an older ts are rejected.  The mac parameter stands for the platform
HMAC-SHA256; the two mac hypotheses (digest bytes below 256, non-empty
digest) hold for its 32-byte output. -/
theorem oauth_state_roundtrip
    (mac : List Nat → List Nat → List Nat) (secret : List Nat)
    (p : StatePayload)
    (hw : ∀ b ∈ p.wid, b < 256 ∧ b ≠ 34 ∧ b ≠ 92)
    (hu : ∀ b ∈ p.uid, b < 256 ∧ b ≠ 34 ∧ b ≠ 92)
    (hmb : ∀ b ∈ mac secret (encodeStatePayload p), b < 256)
    (hmn : mac secret (encodeStatePayload p) ≠ []) :
    (startState mac secret p.wid p.uid p.ts =
      base64Encode (encodeStatePayload p) ++
        '.' :: bytesToHex (mac secret (encodeStatePayload p))) ∧
    (∀ now, verifyState mac secret now (signState mac secret p) =
        Except.ok p ↔ now - p.ts ≤ 600000) ∧
    (∀ state now q, verifyState mac secret now state = Except.ok q →
      ∃ data,
        base64Decode ((splitOnChar '.' state).getD 0 []) = some data ∧
        hexPairs ((splitOnChar '.' state).getD 1 []) = mac secret data ∧
        decodeStatePayload data = some q ∧ now - q.ts ≤ 600000) := by
  have hdata256 : ∀ b ∈ encodeStatePayload p, b < 256 :=
    encodeStatePayload_bytes p (fun b hb => (hw b hb).1)
      (fun b hb => (hu b hb).1)
  have hw34 : 34 ∉ p.wid := fun hh => (hw 34 hh).2.1 rfl
  have hu34 : 34 ∉ p.uid := fun hh => (hu 34 hh).2.1 rfl
  have hE : base64Decode (base64Encode (encodeStatePayload p)) =
      some (encodeStatePayload p) := base64_roundtrip _ hdata256
  have hEnn : base64Encode (encodeStatePayload p) ≠ [] := by
    rw [ne_eq, base64Encode_nil_iff]
    exact encodeStatePayload_ne_nil p
  have hEdot : ∀ c ∈ base64Encode (encodeStatePayload p), c ≠ '.' :=
    base64Encode_no_dot _ hdata256
  have hHdot : ∀ c ∈ bytesToHex (mac secret (encodeStatePayload p)),
      c ≠ '.' := bytesToHex_no_dot _ hmb
  have hsplit : splitOnChar '.' (signState mac secret p) =
      [base64Encode (encodeStatePayload p),
        bytesToHex (mac secret (encodeStatePayload p))] := by
    unfold signState
    rw [splitOnChar_append _ _ _ hEdot, splitOnChar_no_sep _ _ hHdot]
  have hHnn : bytesToHex (mac secret (encodeStatePayload p)) ≠ [] := by
    intro hh
    have hlen := bytesToHex_length (mac secret (encodeStatePayload p))
    rw [hh] at hlen
    simp only [List.length_nil] at hlen
    exact hmn (List.length_eq_zero.mp (by omega))
  have hHlen :
      ¬ (bytesToHex (mac secret (encodeStatePayload p))).length < 2 := by
    rw [bytesToHex_length]
    have : (mac secret (encodeStatePayload p)).length ≠ 0 :=
      fun hh => hmn (List.length_eq_zero.mp hh)
    omega
  have hpairs : hexPairs (bytesToHex (mac secret (encodeStatePayload p))) =
      mac secret (encodeStatePayload p) := hexPairs_bytesToHex _ hmb
  have hdec : decodeStatePayload (encodeStatePayload p) = some p :=
    decodeStatePayload_encode p hw34 hu34
  refine ⟨rfl, ?_, ?_⟩
  · intro now
    unfold verifyState
    rw [hsplit]
    simp only [List.getD_cons_zero, List.getD_cons_succ]
    rw [if_neg (not_or.mpr ⟨hEnn, hHnn⟩), hE]
    simp only [hpairs, hdec, hHlen, if_false, ne_eq, not_true_eq_false]
    by_cases hnow : now - p.ts > 600000 <;> simp [hnow] <;> omega
  · intro state now q hok
    unfold verifyState at hok
    split at hok
    · exact absurd hok (by simp)
    · split at hok
      · exact absurd hok (by simp)
      · split at hok
        · exact absurd hok (by simp)
        · split at hok
          · exact absurd hok (by simp)
          · split at hok
            · exact absurd hok (by simp)
            · split at hok
              · exact absurd hok (by simp)
              · rename_i hcond sopt1 dataV hEq1 hLen1 hSig1 sopt2 pV hEq2 hFresh
                have hpq : pV = q := by injection hok
                subst hpq
                refine ⟨dataV, hEq1, ?_, hEq2, ?_⟩
                · rw [not_not] at hSig1
                  exact hSig1.symm
                · omega

/-- A concrete stand-in for the platform HMAC in witnesses: a constant
two-byte digest (below 256 and non-empty, as the real 32-byte digest is). -/
def c1Mac : List Nat → List Nat → List Nat := fun _ _ => [7, 7]

/-- A concrete signing secret. -/
def c1Secret : List Nat := [1, 2, 3]

/-- A concrete well-formed payload (ASCII ids, ts = 1000 ms). -/
def c1Payload : StatePayload :=
  { wid := strBytes "w1", uid := strBytes "u9", ts := 1000 }

/-- Witness for oauth_state_roundtrip at a concrete payload, secret and
mac, taking the round-trip component at now = 601000 (exactly the
10-minute boundary). -/
theorem oauth_state_roundtrip_witness :
    (∀ b ∈ c1Payload.wid, b < 256 ∧ b ≠ 34 ∧ b ≠ 92) ∧
    (∀ b ∈ c1Payload.uid, b < 256 ∧ b ≠ 34 ∧ b ≠ 92) ∧
    (∀ b ∈ c1Mac c1Secret (encodeStatePayload c1Payload), b < 256) ∧
    c1Mac c1Secret (encodeStatePayload c1Payload) ≠ [] ∧
    (verifyState c1Mac c1Secret 601000 (signState c1Mac c1Secret c1Payload) =
        Except.ok c1Payload ↔ 601000 - c1Payload.ts ≤ 600000) :=
  ⟨by decide, by decide, by decide, by decide,
    (oauth_state_roundtrip c1Mac c1Secret c1Payload (by decide) (by decide)
      (by decide) (by decide)).2.1 601000⟩

end MetaHub
